import Mathlib

/-
Verification of the chapter discovery, parsing and multi-language
site-generation pipeline of mdbook-killer (src/commands/build.rs).

The filesystem is modelled explicitly: a source file is a stem together
with the outcome of reading its contents, and a directory listing is the
outcome of opening the directory.  Fallible Rust code returning
anyhow::Result is embedded as Except with explicit error constructors.
-/

set_option maxHeartbeats 1000000
set_option linter.unusedVariables false

deriving instance DecidableEq for Except

/-- A chapter record, mirroring crate::models::Chapter as it is used in
build.rs (struct literal at build.rs line 134: fields title, content, slug). -/
structure Chapter where
  title : String
  content : Option String
  slug : Option String
deriving DecidableEq, Repr

/-- One directory entry: the file stem and the outcome of
fs::read_to_string (Except.error models an unreadable file). -/
structure SrcFile where
  stem : String
  contents : Except Unit String
deriving DecidableEq, Repr

/-- The errors charpters_from_folder can return: the propagated
fs::read_to_string error, and the anyhow error raised when a plain-text
file has no first line. -/
inductive ScanError where
  | fileReadError
  | noTitleError
deriving DecidableEq, Repr

/-- The result of a successful gray_matter parse: the deserialized
Chapter data and the body text after the closing front-matter delimiter. -/
structure ParsedEntity where
  data : Chapter
  content : String
deriving DecidableEq, Repr

/-- Splits a character list at the first occurrence of sep: the part
before it and the part after it, or none when sep does not occur. -/
def splitFirst (sep : Char) : List Char → Option (List Char × List Char)
  | [] => none
  | c :: rest =>
    if c = sep then some ([], rest)
    else
      match splitFirst sep rest with
      | none => none
      | some (l, r) => some (c :: l, r)

/-- Splits a character list on every occurrence of sep (the semantics of
str::split: always at least one piece, an empty input giving one empty
piece). -/
def splitOnChar (sep : Char) : List Char → List (List Char)
  | [] => [[]]
  | c :: rest =>
    if c = sep then [] :: splitOnChar sep rest
    else
      match splitOnChar sep rest with
      | [] => [[c]]
      | l :: ls => (c :: l) :: ls

/-- The test raw_text.starts_with(prefix) of build.rs line 114, over the
underlying character lists. -/
def strStartsWith (p s : String) : Bool :=
  p.data.isPrefixOf s.data

/-- First line of a string in the sense of Rust str::lines: the text up
to the first newline, with a carriage return stripped when the line
ending is CRLF.  Only meaningful for non-empty input (Rust lines().next()
is None exactly on the empty string). -/
def rustFirstLine (s : String) : String :=
  match splitFirst '\n' s.data with
  | none => s
  | some (l, _) => if l.getLast? = some '\r' then ⟨l.dropLast⟩ else ⟨l⟩

/-- Splits a list of lines at the first "---" delimiter line: returns the
lines before it and the lines after it, or none when no delimiter occurs. -/
def splitAtDelim : List (List Char) → Option (List (List Char) × List (List Char))
  | [] => none
  | l :: rest =>
    if l = ['-', '-', '-'] then some ([], rest)
    else
      match splitAtDelim rest with
      | some (m, b) => some (l :: m, b)
      | none => none

/-- One metadata line "key: value": the key is the text before the first
colon, which must be followed by one space and then the value; any other
shape is a parse failure. -/
def parseMetaLine (cs : List Char) : Option (List Char × List Char) :=
  match splitFirst ':' cs with
  | none => none
  | some (k, rest) =>
    match rest with
    | ' ' :: v => some (k, v)
    | _ => none

/-- Folds the metadata lines into the optional title and slug fields.
Blank lines are skipped, unknown keys are ignored, a malformed line
fails the whole block. -/
def parseMeta : List (List Char) → Option (Option String × Option String)
  | [] => some (none, none)
  | l :: rest =>
    if l.all Char.isWhitespace then parseMeta rest
    else
      match parseMetaLine l with
      | none => none
      | some (k, v) =>
        match parseMeta rest with
        | none => none
        | some (t, sl) =>
          if k = "title".data then some (some ⟨v⟩, sl)
          else if k = "slug".data then some (t, some ⟨v⟩)
          else some (t, sl)

/-- Modelled from the spec: the front-matter engine
(gray_matter::Matter::parse_with_struct together with the serde
Deserialize of crate::models::Chapter, neither of which is under src/).
Per the spec, the leading block delimited by "---" lines is YAML-like
structured metadata deserialized into the title and slug fields of a
Chapter (title required), and the remainder of the file becomes the
content; any failure of this step yields none. -/
def matterParse (s : String) : Option ParsedEntity :=
  match splitOnChar '\n' s.data with
  | [] => none
  | first :: rest =>
    if first = ['-', '-', '-'] then
      match splitAtDelim rest with
      | none => none
      | some (meta, body) =>
        match parseMeta meta with
        | some (some t, sl) =>
          some ⟨⟨t, none, sl⟩, ⟨List.intercalate ['\n'] body⟩⟩
        | _ => none
    else none

/-- The body of the scan loop of charpters_from_folder for one
directory entry (build.rs lines 106-140): a read failure is fatal, a
front-matter file that fails to parse is skipped (ok none), otherwise
one chapter is produced; a plain-text file with no first line is fatal. -/
def scanFile (f : SrcFile) : Except ScanError (Option Chapter) :=
  match f.contents with
  | .error _ => .error .fileReadError
  | .ok algo =>
    if strStartsWith "---" algo then
      match matterParse algo with
      | none => .ok none
      | some pe =>
        .ok (some { title := pe.data.title, content := some pe.content,
                    slug := some (pe.data.slug.getD f.stem) })
    else
      if algo.data.isEmpty then .error .noTitleError
      else .ok (some { title := rustFirstLine algo, content := some algo,
                       slug := some f.stem })

/-- charpters_from_folder (build.rs lines 103-144): iterates the
directory entries in order, accumulating chapters; fatal per-file errors
abort the whole scan, a skipped file contributes nothing. -/
def charpters_from_folder : List SrcFile → Except ScanError (List Chapter)
  | [] => .ok []
  | f :: rest =>
    match scanFile f with
    | .error e => .error e
    | .ok none => charpters_from_folder rest
    | .ok (some c) =>
      match charpters_from_folder rest with
      | .error e => .error e
      | .ok cs => .ok (c :: cs)

/-- How a call to generate_chapters can go wrong: the .unwrap() on a
missing slug (a Rust panic, which aborts the whole build, unlike an
error value), or a failing ssg.gen write, whose error the caller
discards. -/
inductive GenErr where
  | panicMissingSlug
  | writeError
deriving DecidableEq, Repr

/-- generate_chapters (build.rs lines 59-84): for each chapter in order,
derive the output file name slug.unwrap() ++ ".html" and render it
through ssg.gen; genOk says whether the write of a given file name in
the current output directory succeeds.  Returns the list of file names
written. -/
def generate_chapters (genOk : String → Bool) : List Chapter → Except GenErr (List String)
  | [] => .ok []
  | c :: rest =>
    match c.slug with
    | none => .error .panicMissingSlug
    | some s =>
      if genOk (s ++ ".html") then
        match generate_chapters genOk rest with
        | .error e => .error e
        | .ok ps => .ok ((s ++ ".html") :: ps)
      else .error .writeError

/-- The filesystem and renderer outcomes a build runs against: the
outcome of fs::read_dir on each directory path, the outcome of writing
the stylesheet asset, and the outcome of each ssg.gen write (first
argument the output directory, second the file name). -/
structure World where
  readDir : String → Except Unit (List SrcFile)
  styleWriteOk : Bool
  genOk : String → String → Bool

/-- Everything observable about the processing of one language inside
the build loop: its identifier, the source and output directory paths it
resolves, the chapters its own scan produced, and the chapter list that
was handed to generate_chapters for it. -/
structure LangStep where
  lang : String
  srcPath : String
  outPath : String
  scanned : List Chapter
  genChapters : List Chapter
deriving DecidableEq, Repr

/-- The errors of the execute orchestrator: the stylesheet write failing
(line 30), fs::read_dir failing for a language (line 35), a scan error
propagated out of charpters_from_folder (line 38), and a Rust panic
escaping generate_chapters. -/
inductive BuildErr where
  | styleWriteError
  | dirReadError (lang : String)
  | scanError (lang : String) (e : ScanError)
  | panicked
deriving DecidableEq, Repr

/-- The observable outcome of a build: the result value of execute, the
per-language steps that ran, and the chapter list handed to the final
homepage render (none when the build aborted before reaching it). -/
structure BuildOutcome where
  result : Except BuildErr Unit
  steps : List LangStep
  homepage : Option (List Chapter)
deriving DecidableEq, Repr

/-- The language loop of execute (build.rs lines 34-53): for each
language, read its source directory (fatal on failure), scan it (fatal
on failure), append the scanned chapters to the accumulated list, and
run generate_chapters on the accumulated list, whose error value is
discarded but whose panic aborts everything. -/
def executeLoop (w : World) : List String → List Chapter →
    Except BuildErr Unit × List LangStep × List Chapter
  | [], acc => (.ok (), [], acc)
  | lang :: rest, acc =>
    match w.readDir ("./src/" ++ lang) with
    | .error _ => (.error (.dirReadError lang), [], acc)
    | .ok entries =>
      match charpters_from_folder entries with
      | .error e => (.error (.scanError lang e), [], acc)
      | .ok cs =>
        let acc2 := acc ++ cs
        let outP := "./out/book/" ++ lang
        let step : LangStep :=
          { lang := lang, srcPath := "./src/" ++ lang, outPath := outP,
            scanned := cs, genChapters := acc2 }
        if generate_chapters (w.genOk outP) acc2 = .error .panicMissingSlug then
          (.error .panicked, [step], acc2)
        else
          match executeLoop w rest acc2 with
          | (r, steps, accF) => (r, step :: steps, accF)

/-- execute (build.rs lines 16-57): defaults the language list to the
single empty-string language, writes the stylesheet (fatal on failure),
runs the language loop, and on success hands the final accumulated
chapter list to the homepage render (whose own error is discarded). -/
def execute (w : World) (default_language : Option String)
    (languages : Option (List String)) : BuildOutcome :=
  let langs := (languages.or (some [""])).getD []
  if w.styleWriteOk then
    match executeLoop w langs [] with
    | (.ok _, steps, acc) => { result := .ok (), steps := steps, homepage := some acc }
    | (.error e, steps, _) => { result := .error e, steps := steps, homepage := none }
  else
    { result := .error .styleWriteError, steps := [], homepage := none }

/-- Both parsing paths leave the chapter with a populated slug: the
front-matter path ends in slug.get_or_insert(file stem), the plain path
sets the file stem directly. -/
theorem scanFile_slug_isSome (f : SrcFile) (c : Chapter)
    (h : scanFile f = .ok (some c)) : c.slug.isSome = true := by
  unfold scanFile at h
  repeat' split at h
  all_goals simp_all
  all_goals subst h
  all_goals simp

/-- Every chapter returned by a successful scan has a populated slug. -/
theorem charpters_slug_isSome (entries : List SrcFile) (cs : List Chapter)
    (h : charpters_from_folder entries = .ok cs) :
    ∀ c ∈ cs, c.slug.isSome = true := by
  induction entries generalizing cs with
  | nil =>
    unfold charpters_from_folder at h
    simp at h
    subst h
    intro c hc
    cases hc
  | cons f rest ih =>
    unfold charpters_from_folder at h
    cases hf : scanFile f with
    | error e => rw [hf] at h; simp at h
    | ok oc =>
      rw [hf] at h
      cases oc with
      | none => exact ih cs h
      | some c0 =>
        cases hr : charpters_from_folder rest with
        | error e => rw [hr] at h; simp at h
        | ok cs0 =>
          rw [hr] at h
          simp at h
          subst h
          intro c hc
          cases hc with
          | head => exact scanFile_slug_isSome f c0 hf
          | tail _ hmem => exact ih cs0 hr c hmem

/-- A file the parser skips (front-matter parse failure) contributes
nothing and changes nothing: scanning the folder with it present equals
scanning the folder without it, wherever it sits in the listing. -/
theorem charpters_skip (b : SrcFile) (hb : scanFile b = .ok none)
    (pre post : List SrcFile) :
    charpters_from_folder (pre ++ b :: post) = charpters_from_folder (pre ++ post) := by
  induction pre with
  | nil =>
    simp only [List.nil_append]
    simp only [charpters_from_folder, hb]
  | cons g pre ih =>
    simp only [List.cons_append]
    simp only [charpters_from_folder, ih]

/-- A folder whose every entry scans to exactly one chapter yields
exactly one chapter per entry. -/
theorem charpters_all_some (l : List SrcFile)
    (h : ∀ g ∈ l, ∃ c, scanFile g = .ok (some c)) :
    ∃ cs, charpters_from_folder l = .ok cs ∧ cs.length = l.length := by
  induction l with
  | nil => exact ⟨[], rfl, rfl⟩
  | cons g rest ih =>
    obtain ⟨c, hc⟩ := h g (List.mem_cons_self g rest)
    obtain ⟨cs, hcs, hlen⟩ := ih (fun g' hg' => h g' (List.mem_cons_of_mem g hg'))
    refine ⟨c :: cs, ?_, by simp [hlen]⟩
    simp only [charpters_from_folder, hc, hcs]

/-- A fatal per-file error (read failure or missing title line) at any
position, with every earlier entry scanning without a fatal error,
aborts the whole scan with exactly that error. -/
theorem charpters_fatal (pre : List SrcFile) (f : SrcFile) (post : List SrcFile)
    (e : ScanError) (hok : ∀ g ∈ pre, ∃ c, scanFile g = .ok c)
    (hf : scanFile f = .error e) :
    charpters_from_folder (pre ++ f :: post) = .error e := by
  induction pre with
  | nil =>
    simp only [List.nil_append]
    simp only [charpters_from_folder, hf]
  | cons g pre ih =>
    obtain ⟨c, hc⟩ := hok g (List.mem_cons_self g pre)
    have ih2 := ih (fun g' hg' => hok g' (List.mem_cons_of_mem g hg'))
    simp only [List.cons_append]
    cases c with
    | none => simp only [charpters_from_folder, hc, ih2]
    | some c0 => simp only [charpters_from_folder, hc, ih2]

/-- When every chapter in the list has a populated slug, the
slug.unwrap() inside generate_chapters never panics, whatever the write
outcomes are. -/
theorem generate_chapters_no_panic (g : String → Bool) (chapters : List Chapter)
    (h : ∀ c ∈ chapters, c.slug.isSome = true) :
    generate_chapters g chapters ≠ .error .panicMissingSlug := by
  induction chapters with
  | nil => simp [generate_chapters]
  | cons c rest ih =>
    have hc := h c (List.mem_cons_self c rest)
    obtain ⟨s, hs⟩ := Option.isSome_iff_exists.mp hc
    have ih2 := ih (fun c' hc' => h c' (List.mem_cons_of_mem c hc'))
    simp only [generate_chapters, hs]
    by_cases hg : g (s ++ ".html") = true
    · simp only [hg, if_true]
      cases hr : generate_chapters g rest with
      | error e =>
        rw [hr] at ih2
        simpa using ih2
      | ok ps => simp
    · simp only [Bool.not_eq_true] at hg
      simp [hg]

/-- When every chapter has a populated slug and every write succeeds,
generate_chapters writes exactly the file slug ++ ".html" for each
chapter, in order. -/
theorem generate_chapters_paths (g : String → Bool) (chapters : List Chapter)
    (h : ∀ c ∈ chapters, c.slug.isSome = true) (hg : ∀ p, g p = true) :
    generate_chapters g chapters =
      .ok (chapters.map fun c => (c.slug.getD "") ++ ".html") := by
  induction chapters with
  | nil => simp [generate_chapters]
  | cons c rest ih =>
    have hc := h c (List.mem_cons_self c rest)
    obtain ⟨s, hs⟩ := Option.isSome_iff_exists.mp hc
    have ih2 := ih (fun c' hc' => h c' (List.mem_cons_of_mem c hc'))
    simp only [generate_chapters, hs, hg (s ++ ".html"), if_true, ih2]
    simp [hs]

/-- Unfolding executeLoop when fs::read_dir fails for the head language:
the build aborts at once with the propagated error. -/
theorem executeLoop_cons_dirErr (w : World) (lang : String) (rest : List String)
    (acc : List Chapter) (hdir : w.readDir ("./src/" ++ lang) = .error ()) :
    executeLoop w (lang :: rest) acc = (.error (.dirReadError lang), [], acc) := by
  simp only [executeLoop, hdir]

/-- Unfolding executeLoop when the scan of the head language fails: the build
aborts at once with the propagated scan error. -/
theorem executeLoop_cons_scanErr (w : World) (lang : String) (rest : List String)
    (acc : List Chapter) (entries : List SrcFile) (e : ScanError)
    (hdir : w.readDir ("./src/" ++ lang) = .ok entries)
    (hscan : charpters_from_folder entries = .error e) :
    executeLoop w (lang :: rest) acc = (.error (.scanError lang e), [], acc) := by
  simp only [executeLoop, hdir, hscan]

/-- Unfolding executeLoop when the head language scans fine and its
generation pass does not panic: one step is recorded and the loop
continues with the enlarged accumulated list. -/
theorem executeLoop_cons_ok (w : World) (lang : String) (rest : List String)
    (acc : List Chapter) (entries : List SrcFile) (cs : List Chapter)
    (hdir : w.readDir ("./src/" ++ lang) = .ok entries)
    (hscan : charpters_from_folder entries = .ok cs)
    (hnp : generate_chapters (w.genOk ("./out/book/" ++ lang)) (acc ++ cs) ≠
      .error .panicMissingSlug) :
    executeLoop w (lang :: rest) acc =
      ((executeLoop w rest (acc ++ cs)).1,
       ⟨lang, "./src/" ++ lang, "./out/book/" ++ lang, cs, acc ++ cs⟩ ::
         (executeLoop w rest (acc ++ cs)).2.1,
       (executeLoop w rest (acc ++ cs)).2.2) := by
  simp only [executeLoop, hdir, hscan]
  rw [if_neg hnp]

/-- Unfolding executeLoop when the head language scans fine but its
generation pass panics on a missing slug: the step is recorded and the
whole build aborts. -/
theorem executeLoop_cons_panic (w : World) (lang : String) (rest : List String)
    (acc : List Chapter) (entries : List SrcFile) (cs : List Chapter)
    (hdir : w.readDir ("./src/" ++ lang) = .ok entries)
    (hscan : charpters_from_folder entries = .ok cs)
    (hp : generate_chapters (w.genOk ("./out/book/" ++ lang)) (acc ++ cs) =
      .error .panicMissingSlug) :
    executeLoop w (lang :: rest) acc =
      (.error .panicked,
       [⟨lang, "./src/" ++ lang, "./out/book/" ++ lang, cs, acc ++ cs⟩],
       acc ++ cs) := by
  simp only [executeLoop, hdir, hscan]
  rw [if_pos hp]

/-- Every step the loop records corresponds to a real, successful scan:
its source path was readable, its scanned chapters are exactly what
charpters_from_folder returned there, and its paths are the resolved
per-language source and output directories. -/
theorem executeLoop_steps_scan (w : World) (langs : List String) (acc : List Chapter) :
    ∀ step ∈ (executeLoop w langs acc).2.1,
      ∃ entries, w.readDir step.srcPath = .ok entries ∧
        charpters_from_folder entries = .ok step.scanned ∧
        step.srcPath = "./src/" ++ step.lang ∧
        step.outPath = "./out/book/" ++ step.lang := by
  induction langs generalizing acc with
  | nil =>
    intro step hstep
    simp [executeLoop] at hstep
  | cons lang rest ih =>
    intro step hstep
    cases hdir : w.readDir ("./src/" ++ lang) with
    | error u =>
      cases u
      rw [executeLoop_cons_dirErr w lang rest acc hdir] at hstep
      simp at hstep
    | ok entries =>
      cases hscan : charpters_from_folder entries with
      | error e =>
        rw [executeLoop_cons_scanErr w lang rest acc entries e hdir hscan] at hstep
        simp at hstep
      | ok cs =>
        by_cases hp : generate_chapters (w.genOk ("./out/book/" ++ lang)) (acc ++ cs) =
            .error .panicMissingSlug
        · rw [executeLoop_cons_panic w lang rest acc entries cs hdir hscan hp] at hstep
          simp at hstep
          subst hstep
          exact ⟨entries, hdir, hscan, rfl, rfl⟩
        · rw [executeLoop_cons_ok w lang rest acc entries cs hdir hscan hp] at hstep
          cases hstep with
          | head => exact ⟨entries, hdir, hscan, rfl, rfl⟩
          | tail _ hmem => exact ih (acc ++ cs) step hmem

/-- The accumulation invariant of the build loop: the chapter list handed
to the generation pass of the step at index i is the initial accumulated
list followed by the concatenation of the chapters scanned by steps
0 through i.  The list is never reset between languages. -/
theorem executeLoop_genChapters (w : World) (langs : List String) (acc : List Chapter) :
    ∀ i step, (executeLoop w langs acc).2.1[i]? = some step →
      step.genChapters =
        acc ++ ((((executeLoop w langs acc).2.1.take (i + 1)).map LangStep.scanned).flatten) := by
  induction langs generalizing acc with
  | nil =>
    intro i step hstep
    simp [executeLoop] at hstep
  | cons lang rest ih =>
    intro i step hstep
    cases hdir : w.readDir ("./src/" ++ lang) with
    | error u =>
      cases u
      rw [executeLoop_cons_dirErr w lang rest acc hdir] at hstep ⊢
      simp at hstep
    | ok entries =>
      cases hscan : charpters_from_folder entries with
      | error e =>
        rw [executeLoop_cons_scanErr w lang rest acc entries e hdir hscan] at hstep ⊢
        simp at hstep
      | ok cs =>
        by_cases hp : generate_chapters (w.genOk ("./out/book/" ++ lang)) (acc ++ cs) =
            .error .panicMissingSlug
        · rw [executeLoop_cons_panic w lang rest acc entries cs hdir hscan hp] at hstep ⊢
          cases i with
          | zero =>
            simp at hstep
            subst hstep
            simp
          | succ j => simp at hstep
        · rw [executeLoop_cons_ok w lang rest acc entries cs hdir hscan hp] at hstep ⊢
          cases i with
          | zero =>
            simp at hstep
            subst hstep
            simp
          | succ j =>
            simp only [List.getElem?_cons_succ] at hstep
            have := ih (acc ++ cs) j step hstep
            simp only [List.take_succ_cons, List.map_cons, List.flatten_cons] at this ⊢
            rw [this]
            simp [List.append_assoc]

/-- When the initial accumulated list has only populated slugs, every
chapter list handed to a generation pass also has only populated slugs
(scanned chapters always come with one). -/
theorem executeLoop_slugs (w : World) (langs : List String) (acc : List Chapter)
    (hacc : ∀ c ∈ acc, c.slug.isSome = true) :
    ∀ step ∈ (executeLoop w langs acc).2.1, ∀ c ∈ step.genChapters,
      c.slug.isSome = true := by
  induction langs generalizing acc with
  | nil =>
    intro step hstep
    simp [executeLoop] at hstep
  | cons lang rest ih =>
    intro step hstep
    cases hdir : w.readDir ("./src/" ++ lang) with
    | error u =>
      cases u
      rw [executeLoop_cons_dirErr w lang rest acc hdir] at hstep
      simp at hstep
    | ok entries =>
      cases hscan : charpters_from_folder entries with
      | error e =>
        rw [executeLoop_cons_scanErr w lang rest acc entries e hdir hscan] at hstep
        simp at hstep
      | ok cs =>
        have hacc2 : ∀ c ∈ acc ++ cs, c.slug.isSome = true := by
          intro c hc
          rcases List.mem_append.mp hc with h1 | h2
          · exact hacc c h1
          · exact charpters_slug_isSome entries cs hscan c h2
        by_cases hp : generate_chapters (w.genOk ("./out/book/" ++ lang)) (acc ++ cs) =
            .error .panicMissingSlug
        · rw [executeLoop_cons_panic w lang rest acc entries cs hdir hscan hp] at hstep
          simp at hstep
          subst hstep
          exact hacc2
        · rw [executeLoop_cons_ok w lang rest acc entries cs hdir hscan hp] at hstep
          cases hstep with
          | head => exact hacc2
          | tail _ hmem => exact ih (acc ++ cs) hacc2 step hmem

/-- When the stylesheet write and the scan of every language succeed, the
loop runs to the end: it returns ok, records one step per language in
order, and ends with the initial list extended by every scanned chapter. -/
theorem executeLoop_all_ok (w : World) (langs : List String) (acc : List Chapter)
    (hacc : ∀ c ∈ acc, c.slug.isSome = true)
    (hscan : ∀ lang ∈ langs, ∃ entries cs,
      w.readDir ("./src/" ++ lang) = .ok entries ∧
      charpters_from_folder entries = .ok cs) :
    (executeLoop w langs acc).1 = .ok () ∧
    (executeLoop w langs acc).2.1.map LangStep.lang = langs ∧
    (executeLoop w langs acc).2.2 =
      acc ++ (((executeLoop w langs acc).2.1.map LangStep.scanned).flatten) := by
  induction langs generalizing acc with
  | nil => simp [executeLoop]
  | cons lang rest ih =>
    obtain ⟨entries, cs, hdir, hcs⟩ := hscan lang (List.mem_cons_self lang rest)
    have hacc2 : ∀ c ∈ acc ++ cs, c.slug.isSome = true := by
      intro c hc
      rcases List.mem_append.mp hc with h1 | h2
      · exact hacc c h1
      · exact charpters_slug_isSome entries cs hcs c h2
    have hnp := generate_chapters_no_panic (w.genOk ("./out/book/" ++ lang)) (acc ++ cs) hacc2
    rw [executeLoop_cons_ok w lang rest acc entries cs hdir hcs hnp]
    obtain ⟨h1, h2, h3⟩ := ih (acc ++ cs) hacc2
      (fun lang' hl' => hscan lang' (List.mem_cons_of_mem lang hl'))
    refine ⟨h1, by simp [h2], ?_⟩
    simp only [List.map_cons, List.flatten_cons]
    rw [h3]
    simp [List.append_assoc]

/-- When the loop returns ok, its final accumulated list is the initial
one extended by every scanned chapter, in step order. -/
theorem executeLoop_ok_acc (w : World) (langs : List String) (acc : List Chapter)
    (h : (executeLoop w langs acc).1 = .ok ()) :
    (executeLoop w langs acc).2.2 =
      acc ++ (((executeLoop w langs acc).2.1.map LangStep.scanned).flatten) := by
  induction langs generalizing acc with
  | nil => simp [executeLoop]
  | cons lang rest ih =>
    cases hdir : w.readDir ("./src/" ++ lang) with
    | error u =>
      cases u
      rw [executeLoop_cons_dirErr w lang rest acc hdir] at h
      simp at h
    | ok entries =>
      cases hscan : charpters_from_folder entries with
      | error e =>
        rw [executeLoop_cons_scanErr w lang rest acc entries e hdir hscan] at h
        simp at h
      | ok cs =>
        by_cases hp : generate_chapters (w.genOk ("./out/book/" ++ lang)) (acc ++ cs) =
            .error .panicMissingSlug
        · rw [executeLoop_cons_panic w lang rest acc entries cs hdir hscan hp] at h
          simp at h
        · rw [executeLoop_cons_ok w lang rest acc entries cs hdir hscan hp] at h ⊢
          have := ih (acc ++ cs) h
          simp only [List.map_cons, List.flatten_cons]
          rw [this]
          simp [List.append_assoc]

/-- Unfolding execute past a successful stylesheet write: the result and
the steps are those of the loop, and the homepage
render happens exactly when the loop returned ok, receiving the final
accumulated chapter list. -/
theorem execute_unfold (w : World) (dl : Option String) (ls : Option (List String))
    (hstyle : w.styleWriteOk = true) :
    execute w dl ls =
      ⟨(executeLoop w ((ls.or (some [""])).getD []) []).1,
       (executeLoop w ((ls.or (some [""])).getD []) []).2.1,
       if (executeLoop w ((ls.or (some [""])).getD []) []).1 = .ok () then
         some (executeLoop w ((ls.or (some [""])).getD []) []).2.2
       else none⟩ := by
  unfold execute
  simp only [hstyle, if_true]
  cases hL : executeLoop w ((ls.or (some [""])).getD []) [] with
  | mk r s2 =>
    cases s2 with
    | mk steps accF =>
      cases r with
      | error e => simp
      | ok u => cases u; simp

/-- A world where the source directory of language "a" cannot be opened
while language "b" has a perfectly readable directory with one
plain-text chapter file. -/
def wDirFail : World :=
  { readDir := fun p =>
      if p = "./src/b" then .ok [⟨"x", .ok "Hola"⟩] else .error (),
    styleWriteOk := true,
    genOk := fun _ _ => true }

/-- A world whose root source directory holds an empty file followed by
a readable plain-text file. -/
def wEmptyFile : World :=
  { readDir := fun p =>
      if p = "./src/" then .ok [⟨"a", .ok ""⟩, ⟨"b", .ok "Hola"⟩] else .error (),
    styleWriteOk := true,
    genOk := fun _ _ => true }

/-- A world with two healthy languages "a" and "b", one plain-text
chapter each. -/
def wTwo : World :=
  { readDir := fun p =>
      if p = "./src/a" then .ok [⟨"a1", .ok "Uno"⟩]
      else if p = "./src/b" then .ok [⟨"b1", .ok "Dos"⟩]
      else .error (),
    styleWriteOk := true,
    genOk := fun _ _ => true }

/-- A world with a healthy root source directory but in which every
single ssg.gen write fails. -/
def wGenFail : World :=
  { readDir := fun p =>
      if p = "./src/" then .ok [⟨"x", .ok "Hola"⟩] else .error (),
    styleWriteOk := true,
    genOk := fun _ _ => false }

/-- C1, counterexample.  In wDirFail the scan of language "a" fails with
a directory-read error while language "b" is scannable (its folder scan
succeeds on its own); yet the build aborts with the propagated error and
records no step at all, so language "b" is neither scanned nor
generated, contradicting the claim that the failure does not abort the
processing of the other languages. -/
theorem c1_counterexample :
    (execute wDirFail none (some ["a", "b"])).result = .error (.dirReadError "a") ∧
    (execute wDirFail none (some ["a", "b"])).steps = [] ∧
    charpters_from_folder [⟨"x", .ok "Hola"⟩] =
      .ok [⟨"Hola", some "Hola", some "x"⟩] := by
  refine ⟨by decide, by decide, by decide⟩

/-- C1, amended: a directory-read failure for a language is fatal to the
whole build: execute propagates the error at once, records no step, and
never reaches the remaining languages or the homepage render. -/
theorem c1_dir_error_aborts (w : World) (dl : Option String) (lang : String)
    (rest : List String) (hstyle : w.styleWriteOk = true)
    (hdir : w.readDir ("./src/" ++ lang) = .error ()) :
    execute w dl (some (lang :: rest)) =
      ⟨.error (.dirReadError lang), [], none⟩ := by
  rw [execute_unfold w dl (some (lang :: rest)) hstyle]
  have : ((Option.or (some (lang :: rest)) (some [""])).getD []) = lang :: rest := rfl
  rw [this, executeLoop_cons_dirErr w lang rest [] hdir]
  simp

/-- C1, witness for the amended theorem. -/
theorem c1_witness :
    wDirFail.styleWriteOk = true ∧
    wDirFail.readDir ("./src/" ++ "a") = .error () ∧
    execute wDirFail none (some ["a", "b"]) = ⟨.error (.dirReadError "a"), [], none⟩ :=
  ⟨rfl, by decide, c1_dir_error_aborts wDirFail none "a" ["b"] rfl (by decide)⟩

/-- C2, counterexample.  An empty source file among the entries is not a
recoverable, per-file failure: the scan of the wEmptyFile root directory
returns the no-title error instead of the chapter list of the remaining
readable file, and the build aborts instead of completing. -/
theorem c2_counterexample :
    charpters_from_folder [⟨"a", .ok ""⟩, ⟨"b", .ok "Hola"⟩] = .error .noTitleError ∧
    (execute wEmptyFile none none).result = .error (.scanError "" .noTitleError) ∧
    (execute wEmptyFile none none).steps = [] ∧
    (execute wEmptyFile none none).homepage = none := by
  refine ⟨by decide, by decide, by decide, by decide⟩

/-- C2, amended: a source file with no lines at all is a fatal scan
failure, not a skipped one: provided the entries before it scan without
a fatal error, the whole directory scan returns the no-title error and
no chapter list is produced for that directory. -/
theorem c2_empty_file_fatal (pre post : List SrcFile) (stem : String)
    (hok : ∀ g ∈ pre, ∃ c, scanFile g = .ok c) :
    charpters_from_folder (pre ++ ⟨stem, .ok ""⟩ :: post) = .error .noTitleError :=
  charpters_fatal pre ⟨stem, .ok ""⟩ post .noTitleError hok rfl

/-- C2, witness for the amended theorem. -/
theorem c2_witness :
    (∀ g ∈ [(⟨"b", .ok "Hola"⟩ : SrcFile)], ∃ c, scanFile g = .ok c) ∧
    charpters_from_folder [⟨"b", .ok "Hola"⟩, ⟨"a", .ok ""⟩, ⟨"c", .ok "Adios"⟩] =
      .error .noTitleError :=
  ⟨fun g hg => ⟨some ⟨"Hola", some "Hola", some "b"⟩, by
      rw [List.mem_singleton] at hg
      subst hg
      decide⟩,
   c2_empty_file_fatal [⟨"b", .ok "Hola"⟩] [⟨"c", .ok "Adios"⟩] "a"
     (fun g hg => ⟨some ⟨"Hola", some "Hola", some "b"⟩, by
        rw [List.mem_singleton] at hg
        subst hg
        decide⟩)⟩

/-- C3: for every build, the chapter list handed to the generation pass
of the step at index i is exactly the concatenation of the chapters
scanned by steps 0 through i (the accumulating list is never reset
between languages), and whenever the build returns ok the final
homepage render receives the concatenation over all processed
languages. -/
theorem c3_accumulated_chapters (w : World) (dl : Option String)
    (ls : Option (List String)) :
    (∀ i step, (execute w dl ls).steps[i]? = some step →
      step.genChapters =
        (((execute w dl ls).steps.take (i + 1)).map LangStep.scanned).flatten) ∧
    ((execute w dl ls).result = .ok () →
      (execute w dl ls).homepage =
        some (((execute w dl ls).steps.map LangStep.scanned).flatten)) := by
  by_cases hstyle : w.styleWriteOk = true
  · rw [execute_unfold w dl ls hstyle]
    constructor
    · intro i step hstep
      simpa using executeLoop_genChapters w ((ls.or (some [""])).getD []) [] i step hstep
    · intro hok
      simp only at hok
      simp only [hok, if_true]
      simpa using executeLoop_ok_acc w ((ls.or (some [""])).getD []) [] hok
  · simp only [Bool.not_eq_true] at hstyle
    constructor
    · intro i step hstep
      simp [execute, hstyle] at hstep
    · intro hok
      simp [execute, hstyle] at hok

/-- The step the build of wTwo records for its second language. -/
def stepB : LangStep :=
  ⟨"b", "./src/b", "./out/book/b",
   [⟨"Dos", some "Dos", some "b1"⟩],
   [⟨"Uno", some "Uno", some "a1"⟩, ⟨"Dos", some "Dos", some "b1"⟩]⟩

/-- C3, witness: in the two-language build of wTwo, the generation list
of the second step is the concatenation of both scans, and the homepage
receives the full concatenation. -/
theorem c3_witness :
    (execute wTwo none (some ["a", "b"])).steps[1]? = some stepB ∧
    stepB.genChapters =
      (((execute wTwo none (some ["a", "b"])).steps.take 2).map LangStep.scanned).flatten ∧
    (execute wTwo none (some ["a", "b"])).result = .ok () ∧
    (execute wTwo none (some ["a", "b"])).homepage =
      some (((execute wTwo none (some ["a", "b"])).steps.map LangStep.scanned).flatten) :=
  ⟨by decide,
   (c3_accumulated_chapters wTwo none (some ["a", "b"])).1 1 stepB (by decide),
   by decide,
   (c3_accumulated_chapters wTwo none (some ["a", "b"])).2 (by decide)⟩

/-- C4: a file whose front-matter metadata block fails to deserialize is
skipped and the scan continues: with every other entry scanning to one
chapter, the folder of N readable files yields ok with N - 1 chapters,
the same list the folder without the malformed file would yield. -/
theorem c4_malformed_skipped (pre post : List SrcFile) (stem s : String)
    (hfm : strStartsWith "---" s = true) (hm : matterParse s = none)
    (hok : ∀ g ∈ pre ++ post, ∃ c, scanFile g = .ok (some c)) :
    ∃ cs, charpters_from_folder (pre ++ ⟨stem, .ok s⟩ :: post) = .ok cs ∧
      cs.length + 1 = (pre ++ ⟨stem, .ok s⟩ :: post).length ∧
      charpters_from_folder (pre ++ post) = .ok cs := by
  have hb : scanFile ⟨stem, .ok s⟩ = .ok none := by
    simp [scanFile, hfm, hm]
  obtain ⟨cs, hcs, hlen⟩ := charpters_all_some (pre ++ post) hok
  refine ⟨cs, ?_, ?_, hcs⟩
  · rw [charpters_skip ⟨stem, .ok s⟩ hb pre post, hcs]
  · simp only [List.length_append, List.length_cons] at hlen ⊢
    omega

/-- C4, witness: a three-file folder whose middle file declares front
matter with no title (deserialization failure) yields the two chapters
of the other files. -/
theorem c4_witness :
    strStartsWith "---" "---\nslug: x\n---\nBody" = true ∧
    matterParse "---\nslug: x\n---\nBody" = none ∧
    (∃ cs, charpters_from_folder
        [⟨"a", .ok "Uno"⟩, ⟨"b", .ok "---\nslug: x\n---\nBody"⟩, ⟨"c", .ok "Tres"⟩] =
        .ok cs ∧
      cs.length + 1 =
        ([⟨"a", .ok "Uno"⟩, ⟨"b", .ok "---\nslug: x\n---\nBody"⟩,
          (⟨"c", .ok "Tres"⟩ : SrcFile)] : List SrcFile).length ∧
      charpters_from_folder [⟨"a", .ok "Uno"⟩, ⟨"c", .ok "Tres"⟩] = .ok cs) :=
  ⟨by decide, by decide,
   by
    have h := c4_malformed_skipped [⟨"a", .ok "Uno"⟩] [⟨"c", .ok "Tres"⟩] "b"
      "---\nslug: x\n---\nBody" (by decide) (by decide)
      (fun g hg => by
        fin_cases hg
        · exact ⟨⟨"Uno", some "Uno", some "a"⟩, by decide⟩
        · exact ⟨⟨"Tres", some "Tres", some "c"⟩, by decide⟩)
    simpa using h⟩

/-- C5: a non-empty source text with no front-matter marker parses to a
chapter whose title is the first line, whose slug is the file stem and
whose content is the whole text, and a folder holding just that file
scans to exactly that chapter. -/
theorem c5_plain_text (s stem : String) (hne : s.data.isEmpty = false)
    (hfm : strStartsWith "---" s = false) :
    scanFile ⟨stem, .ok s⟩ =
      .ok (some ⟨rustFirstLine s, some s, some stem⟩) ∧
    charpters_from_folder [⟨stem, .ok s⟩] =
      .ok [⟨rustFirstLine s, some s, some stem⟩] := by
  have h1 : scanFile ⟨stem, .ok s⟩ =
      .ok (some ⟨rustFirstLine s, some s, some stem⟩) := by
    simp [scanFile, hfm, hne]
  exact ⟨h1, by simp only [charpters_from_folder, h1]⟩

/-- C5, witness: the spec scenario es/nota.md. -/
theorem c5_witness :
    ("Bienvenido\nTexto del capitulo" : String).data.isEmpty = false ∧
    strStartsWith "---" "Bienvenido\nTexto del capitulo" = false ∧
    rustFirstLine "Bienvenido\nTexto del capitulo" = "Bienvenido" ∧
    scanFile ⟨"nota", .ok "Bienvenido\nTexto del capitulo"⟩ =
      .ok (some ⟨rustFirstLine "Bienvenido\nTexto del capitulo",
        some "Bienvenido\nTexto del capitulo", some "nota"⟩) :=
  ⟨by decide, by decide, by decide,
   (c5_plain_text "Bienvenido\nTexto del capitulo" "nota" (by decide) (by decide)).1⟩

/-- C6: a source text beginning with the front-matter marker whose block
deserializes successfully parses to a chapter carrying the declared
title, the post-delimiter body as content, and as slug the declared one
when present, the file stem only otherwise. -/
theorem c6_front_matter (s stem : String) (pe : ParsedEntity)
    (hfm : strStartsWith "---" s = true) (hm : matterParse s = some pe) :
    scanFile ⟨stem, .ok s⟩ =
      .ok (some ⟨pe.data.title, some pe.content, some (pe.data.slug.getD stem)⟩) ∧
    (∀ sl, pe.data.slug = some sl → pe.data.slug.getD stem = sl) ∧
    (pe.data.slug = none → pe.data.slug.getD stem = stem) := by
  refine ⟨by simp [scanFile, hfm, hm], ?_, ?_⟩
  · intro sl h
    simp [h]
  · intro h
    simp [h]

/-- C6, witness: the spec scenario en/intro.md, whose front matter
declares both title and slug; the declared slug survives and the body
after the closing delimiter becomes the content. -/
theorem c6_witness :
    strStartsWith "---" "---\ntitle: Intro\nslug: intro\n---\nHello" = true ∧
    matterParse "---\ntitle: Intro\nslug: intro\n---\nHello" =
      some ⟨⟨"Intro", none, some "intro"⟩, "Hello"⟩ ∧
    scanFile ⟨"intro_file", .ok "---\ntitle: Intro\nslug: intro\n---\nHello"⟩ =
      .ok (some ⟨"Intro", some "Hello",
        some ((Option.some "intro").getD "intro_file")⟩) :=
  ⟨by decide, by decide,
   (c6_front_matter "---\ntitle: Intro\nslug: intro\n---\nHello" "intro_file"
     ⟨⟨"Intro", none, some "intro"⟩, "Hello"⟩ (by decide) (by decide)).1⟩

/-- C7: every chapter in a list handed to a generation pass has a
populated slug, so the slug extraction in generate_chapters never hits
the missing-slug panic, and when the writes succeed the produced output
file of each chapter is exactly slug ++ ".html" inside the output
directory of that language. -/
theorem c7_generation_slugs (w : World) (dl : Option String)
    (ls : Option (List String)) (step : LangStep)
    (hstep : step ∈ (execute w dl ls).steps) :
    (∀ c ∈ step.genChapters, c.slug.isSome = true) ∧
    (∀ g, generate_chapters g step.genChapters ≠ .error .panicMissingSlug) ∧
    (∀ g, (∀ p, g p = true) →
      generate_chapters g step.genChapters =
        .ok (step.genChapters.map fun c => (c.slug.getD "") ++ ".html")) ∧
    step.outPath = "./out/book/" ++ step.lang := by
  by_cases hstyle : w.styleWriteOk = true
  · rw [execute_unfold w dl ls hstyle] at hstep
    have hslug := executeLoop_slugs w ((ls.or (some [""])).getD []) []
      (by intro c hc; cases hc) step hstep
    obtain ⟨entries, hdir, hscan, hsrc, hout⟩ :=
      executeLoop_steps_scan w ((ls.or (some [""])).getD []) [] step hstep
    exact ⟨hslug, fun g => generate_chapters_no_panic g step.genChapters hslug,
      fun g hg => generate_chapters_paths g step.genChapters hslug hg, hout⟩
  · simp only [Bool.not_eq_true] at hstyle
    simp [execute, hstyle] at hstep

/-- The step the build of wTwo records for its first language. -/
def stepA : LangStep :=
  ⟨"a", "./src/a", "./out/book/a",
   [⟨"Uno", some "Uno", some "a1"⟩],
   [⟨"Uno", some "Uno", some "a1"⟩]⟩

/-- C7, witness. -/
theorem c7_witness :
    stepA ∈ (execute wTwo none (some ["a", "b"])).steps ∧
    ((∀ c ∈ stepA.genChapters, c.slug.isSome = true) ∧
     (∀ g, generate_chapters g stepA.genChapters ≠ .error .panicMissingSlug) ∧
     (∀ g, (∀ p, g p = true) →
       generate_chapters g stepA.genChapters =
         .ok (stepA.genChapters.map fun c => (c.slug.getD "") ++ ".html")) ∧
     stepA.outPath = "./out/book/" ++ stepA.lang) :=
  ⟨by decide, c7_generation_slugs wTwo none (some ["a", "b"]) stepA (by decide)⟩

/-- C8: an unreadable file is fatal to the whole scan: provided the
entries before it scanned without a fatal error, the scan returns the
propagated read error and no chapter list, in contrast with a parse
failure, whose file is simply dropped from the result while the scan
continues. -/
theorem c8_read_error_fatal (pre post : List SrcFile) (stem : String)
    (hok : ∀ g ∈ pre, ∃ c, scanFile g = .ok c) :
    charpters_from_folder (pre ++ ⟨stem, .error ()⟩ :: post) = .error .fileReadError ∧
    (∀ b, scanFile b = .ok none →
      charpters_from_folder (pre ++ b :: post) = charpters_from_folder (pre ++ post)) :=
  ⟨charpters_fatal pre ⟨stem, .error ()⟩ post .fileReadError hok rfl,
   fun b hb => charpters_skip b hb pre post⟩

/-- C8, witness. -/
theorem c8_witness :
    (∀ g ∈ [(⟨"b", .ok "Hola"⟩ : SrcFile)], ∃ c, scanFile g = .ok c) ∧
    charpters_from_folder
      [⟨"b", .ok "Hola"⟩, ⟨"bad", .error ()⟩, ⟨"c", .ok "Adios"⟩] =
      .error .fileReadError :=
  ⟨fun g hg => by
      fin_cases hg
      exact ⟨some ⟨"Hola", some "Hola", some "b"⟩, by decide⟩,
   (c8_read_error_fatal [⟨"b", .ok "Hola"⟩] [⟨"c", .ok "Adios"⟩] "bad"
     (fun g hg => by
       fin_cases hg
       exact ⟨some ⟨"Hola", some "Hola", some "b"⟩, by decide⟩)).1⟩

/-- C9: generation outcomes never change the build result: when the
stylesheet write and the scan of every language succeed, execute returns ok,
records one step per language in order, and reaches the homepage render,
whatever the per-page write outcomes are (their errors are discarded). -/
theorem c9_generation_errors_nonfatal (w : World) (dl : Option String)
    (ls : Option (List String)) (hstyle : w.styleWriteOk = true)
    (hscan : ∀ lang ∈ ((ls.or (some [""])).getD []), ∃ entries cs,
      w.readDir ("./src/" ++ lang) = .ok entries ∧
      charpters_from_folder entries = .ok cs) :
    (execute w dl ls).result = .ok () ∧
    (execute w dl ls).steps.map LangStep.lang = (ls.or (some [""])).getD [] ∧
    (execute w dl ls).homepage.isSome = true := by
  rw [execute_unfold w dl ls hstyle]
  obtain ⟨h1, h2, h3⟩ := executeLoop_all_ok w ((ls.or (some [""])).getD []) []
    (by intro c hc; cases hc) hscan
  refine ⟨h1, h2, ?_⟩
  simp [h1]

/-- C9, witness: in wGenFail every single page write fails, yet the
build returns ok and reaches the homepage render. -/
theorem c9_witness :
    wGenFail.styleWriteOk = true ∧
    ((execute wGenFail none none).result = .ok () ∧
     (execute wGenFail none none).steps.map LangStep.lang =
       ((Option.none.or (some [""])).getD []) ∧
     (execute wGenFail none none).homepage.isSome = true) :=
  ⟨rfl,
   c9_generation_errors_nonfatal wGenFail none none rfl
     (fun lang hl => by
       fin_cases hl
       exact ⟨[⟨"x", .ok "Hola"⟩], [⟨"Hola", some "Hola", some "x"⟩],
         by decide, by decide⟩)⟩

/-- C10: with no languages list configured, the build processes exactly
one language, the empty string: it scans the root source directory
"./src/", records a single step whose output directory is the output
root "./out/book/", and hands exactly the scanned chapters to both the
generation pass and the homepage render. -/
theorem c10_no_languages (w : World) (dl : Option String)
    (entries : List SrcFile) (cs : List Chapter)
    (hstyle : w.styleWriteOk = true)
    (hdir : w.readDir "./src/" = .ok entries)
    (hscan : charpters_from_folder entries = .ok cs) :
    (execute w dl none).steps = [⟨"", "./src/", "./out/book/", cs, cs⟩] ∧
    (execute w dl none).result = .ok () ∧
    (execute w dl none).homepage = some cs := by
  rw [execute_unfold w dl none hstyle]
  rw [show ((Option.or none (some [""])).getD []) = [""] from rfl]
  have hdir2 : w.readDir ("./src/" ++ "") = .ok entries := by
    rw [show (("./src/" ++ "" : String)) = "./src/" from rfl]
    exact hdir
  have hslug := charpters_slug_isSome entries cs hscan
  have hnp := generate_chapters_no_panic (w.genOk ("./out/book/" ++ "")) ([] ++ cs)
    (by simpa using hslug)
  rw [executeLoop_cons_ok w "" [] [] entries cs hdir2 hscan hnp]
  refine ⟨?_, rfl, rfl⟩
  rw [show (("./src/" ++ "" : String)) = "./src/" from rfl,
    show (("./out/book/" ++ "" : String)) = "./out/book/" from rfl]
  simp [executeLoop]

/-- C10, witness. -/
theorem c10_witness :
    wGenFail.styleWriteOk = true ∧
    wGenFail.readDir "./src/" = .ok [⟨"x", .ok "Hola"⟩] ∧
    charpters_from_folder [⟨"x", .ok "Hola"⟩] = .ok [⟨"Hola", some "Hola", some "x"⟩] ∧
    ((execute wGenFail none none).steps =
      [⟨"", "./src/", "./out/book/",
        [⟨"Hola", some "Hola", some "x"⟩], [⟨"Hola", some "Hola", some "x"⟩]⟩] ∧
     (execute wGenFail none none).result = .ok () ∧
     (execute wGenFail none none).homepage = some [⟨"Hola", some "Hola", some "x"⟩]) :=
  ⟨rfl, by decide, by decide,
   c10_no_languages wGenFail none [⟨"x", .ok "Hola"⟩]
     [⟨"Hola", some "Hola", some "x"⟩] rfl (by decide) (by decide)⟩
